import Mathlib

/-!
Verification development for the document-extraction pipeline of `src/main.py`
(FastAPI app around the LandingAI ADE parse/extract service).

The embedding models:
* JSON values (`Json`, with mutually inductive list/object spines so that all
  recursions are structural and kernel-computable);
* `json.dumps(-, sort_keys=True)` as `canon` (canonical serialization with
  recursively sorted object keys), hence `schema_fingerprint`;
* the `<::...::>` tag-stripping post-processing (`re.sub(r"<::.*?::>", "", -,
  flags=re.DOTALL)` followed by `str.strip()`) as `stripTags`;
* `_guess_content_type` verbatim;
* the per-upload pipeline of the `upload` handler (lines 100-241 of
  `src/main.py`): the content-addressed cache directory becomes a map from
  fingerprint strings to cache entries with four artifact slots, the two
  remote calls become per-invocation oracle outcomes, and each terminal
  behavior of the handler (rendered result page, or an uncaught exception)
  becomes an `Outcome`.

Hash functions (SHA-256 of file bytes, SHA-256 of the canonical schema
serialization) are abstracted as parameters `hashB`/`hashS`: the pipeline only
ever compares their outputs for equality, and every theorem quantifies over
them.
-/

/-! ## JSON values

Mutually inductive so that serialization and structural comparison can be
defined by structural recursion (which the kernel can evaluate). Numbers are
modeled as integers; the schemas and payloads relevant here contain no
fractional numbers.
-/

mutual
inductive Json where
  | null : Json
  | bool (b : Bool) : Json
  | num (n : Int) : Json
  | str (s : String) : Json
  | arr (elems : JList) : Json
  | obj (fields : JObj) : Json
inductive JList where
  | nil : JList
  | cons (hd : Json) (tl : JList) : JList
inductive JObj where
  | nil : JObj
  | cons (key : String) (val : Json) (tl : JObj) : JObj
end

/-- Build an object spine from a Lean list of key/value pairs (in the given
insertion order, like a Python dict literal). -/
def jobj (l : List (String × Json)) : JObj :=
  l.foldr (fun p t => JObj.cons p.1 p.2 t) .nil

/-- Build an array spine from a Lean list. -/
def jarr (l : List Json) : JList :=
  l.foldr (fun j t => JList.cons j t) .nil

/-! ## Canonical serialization: `json.dumps(x, sort_keys=True)`

Keys are compared as strings (lexicographically by code point, as Python
compares `str`), and every object's fields are emitted in sorted key order,
recursively. Default separators `", "` and `": "` are used. String escaping
models the structural escapes (quote, backslash, newline, tab, CR); this is
only relevant to serialization of concrete strings, not to any comparison.
-/

/-- Lexicographic comparison of character lists by code point (Python `str <`). -/
def lexLt : List Char → List Char → Bool
  | [], [] => false
  | [], _ :: _ => true
  | _ :: _, [] => false
  | c :: cs, d :: ds =>
      if c.toNat < d.toNat then true
      else if d.toNat < c.toNat then false
      else lexLt cs ds

/-- Strict key order used by `sort_keys=True`. -/
def keyLt (a b : String) : Bool := lexLt a.data b.data

/-- JSON string escaping for one character. -/
def escC (c : Char) : List Char :=
  if c = '"' then ['\\', '"']
  else if c = '\\' then ['\\', '\\']
  else if c = '\n' then ['\\', 'n']
  else if c = '\t' then ['\\', 't']
  else if c = '\r' then ['\\', 'r']
  else [c]

/-- Serialize a string with quotes, as `json.dumps` does. -/
def jqs (s : String) : String := "\"" ++ String.mk (s.data.map escC).flatten ++ "\""

/-- Insert a (key, serialized-value) pair into a key-sorted list of pairs. -/
def insertPair (p : String × String) : List (String × String) → List (String × String)
  | [] => [p]
  | q :: t => if keyLt q.1 p.1 then q :: insertPair p t else p :: q :: t

/-- Sort (key, serialized-value) pairs by key (insertion sort). -/
def sortPairs (ps : List (String × String)) : List (String × String) :=
  ps.foldr insertPair []

/-- Render sorted object fields: `"k": v` joined by `", "`. -/
def joinPairs (ps : List (String × String)) : String :=
  String.intercalate ", " (ps.map (fun p => jqs p.1 ++ ": " ++ p.2))

mutual
/-- Canonical serialization of a JSON value, modeling
`json.dumps(x, sort_keys=True)` (src/main.py line 174). Object fields are
serialized and then emitted in sorted key order. -/
def canon : Json → String
  | .null => "null"
  | .bool true => "true"
  | .bool false => "false"
  | .num n => toString n
  | .str s => jqs s
  | .arr l => "[" ++ String.intercalate ", " (canonList l) ++ "]"
  | .obj fs => "\x7b" ++ joinPairs (sortPairs (canonObj fs)) ++ "\x7d"
/-- Serialize each element of an array spine. -/
def canonList : JList → List String
  | .nil => []
  | .cons h t => canon h :: canonList t
/-- Serialize each field value of an object spine, keeping keys and order. -/
def canonObj : JObj → List (String × String)
  | .nil => []
  | .cons k v t => (k, canon v) :: canonObj t
end

/-- The Schema Fingerprint: hash of the canonical serialization
(`hashlib.sha256(json.dumps(SCHEMA, sort_keys=True).encode()).hexdigest()`,
src/main.py lines 174-175). The hash function is a parameter. -/
def schema_fingerprint (hashS : String → String) (schema : Json) : String :=
  hashS (canon schema)

/-- Insert a field into a key-sorted object spine. -/
def insertObj (k : String) (v : Json) : JObj → JObj
  | .nil => .cons k v .nil
  | .cons k' v' t => if keyLt k' k then .cons k' v' (insertObj k v t) else .cons k v (.cons k' v' t)

/-- Sort an object spine by key (insertion sort, same order as `insertPair`). -/
def sortObj : JObj → JObj
  | .nil => .nil
  | .cons k v t => insertObj k v (sortObj t)

/-! ## Structural identity up to key insertion order

`StructEq s1 s2` holds when `s1` and `s2` are the same JSON value except that
objects (at any nesting depth) may list their keys in different insertion
orders: after sorting each object's fields by key the two values agree
pointwise, with values compared recursively. -/

mutual
inductive StructEq : Json → Json → Prop where
  | null : StructEq .null .null
  | bool (b : Bool) : StructEq (.bool b) (.bool b)
  | num (n : Int) : StructEq (.num n) (.num n)
  | str (s : String) : StructEq (.str s) (.str s)
  | arr {l1 l2 : JList} : StructEqL l1 l2 → StructEq (.arr l1) (.arr l2)
  | obj {f1 f2 : JObj} : StructEqO (sortObj f1) (sortObj f2) → StructEq (.obj f1) (.obj f2)
inductive StructEqL : JList → JList → Prop where
  | nil : StructEqL .nil .nil
  | cons {h1 h2 t1 t2} : StructEq h1 h2 → StructEqL t1 t2 → StructEqL (.cons h1 t1) (.cons h2 t2)
inductive StructEqO : JObj → JObj → Prop where
  | nil : StructEqO .nil .nil
  | cons (k : String) {v1 v2 t1 t2} : StructEq v1 v2 → StructEqO t1 t2 →
      StructEqO (.cons k v1 t1) (.cons k v2 t2)
end

/-! ## Markdown tag stripping

Models `re.sub(r"<::.*?::>", "", markdown, flags=re.DOTALL)` followed by
`markdown.strip()` (src/main.py lines 215-218). The regex scan is left to
right; at a position starting with `<::` the non-greedy `.*?` together with
`re.DOTALL` matches up to the first later occurrence of `::>` (any characters,
including newlines, in between); unmatched positions are copied. `strip()` is
modeled over the ASCII whitespace characters. -/

/-- Find the first occurrence of `::>`; return the characters after it. -/
def findCloser : List Char → Option (List Char)
  | ':' :: ':' :: '>' :: t => some t
  | _ :: t => findCloser t
  | [] => none

/-- Whether a `<::...::>` match starts at the head of the list. -/
def isTagStart : List Char → Bool
  | [] => false
  | c :: cs => decide (c = '<' ∧ cs.take 2 = [':', ':']) && (findCloser (cs.drop 2)).isSome

/-- Whether a `<::...::>` span occurs anywhere in the list. -/
def hasTag : List Char → Bool
  | [] => false
  | c :: cs => isTagStart (c :: cs) || hasTag cs

/-- Fuel-indexed removal of all `<::...::>` matches (one character of progress
per step in the worst case, so `length` fuel suffices; with exhausted fuel the
remainder is returned unchanged). -/
def removeTagsF : Nat → List Char → List Char
  | 0, l => l
  | _ + 1, [] => []
  | f + 1, c :: cs =>
      if c = '<' ∧ cs.take 2 = [':', ':'] then
        match findCloser (cs.drop 2) with
        | some t => removeTagsF f t
        | none => c :: removeTagsF f cs
      else c :: removeTagsF f cs

/-- Remove every `<::...::>` span, as `re.sub(r"<::.*?::>", "", m, flags=re.DOTALL)`. -/
def removeTags (l : List Char) : List Char := removeTagsF l.length l

/-- ASCII whitespace stripped by Python `str.strip()`. -/
def pyWs (c : Char) : Bool :=
  c = ' ' || c = '\t' || c = '\n' || c = '\r' || c = '\x0b' || c = '\x0c'

/-- Python `str.strip()`: drop leading and trailing whitespace. -/
def pyStrip (l : List Char) : List Char :=
  ((l.dropWhile pyWs).reverse.dropWhile pyWs).reverse

/-- The markdown tag-stripping transform of src/main.py lines 215-218:
remove `<::...::>` spans, then trim surrounding whitespace. -/
def stripTags (l : List Char) : List Char := pyStrip (removeTags l)

/-- `stripTags` on `String`s. -/
def stripTagsStr (s : String) : String := String.mk (stripTags s.data)

/-! ## Content-type guesser -/

/-- `_guess_content_type` (src/main.py lines 244-258), verbatim: lowercase the
name and test the seven suffixes in order. -/
def _guess_content_type (name : String) : String :=
  let n := name.toLower
  if n.endsWith ".pdf" then "application/pdf"
  else if n.endsWith ".png" then "image/png"
  else if n.endsWith ".jpg" || n.endsWith ".jpeg" then "image/jpeg"
  else if n.endsWith ".webp" then "image/webp"
  else if n.endsWith ".gif" then "image/gif"
  else if n.endsWith ".bmp" then "image/bmp"
  else "application/octet-stream"

/-- The suffix-to-type table as the spec (claim C9) describes the mapping. -/
def mimeTable : List (String × String) :=
  [(".pdf", "application/pdf"), (".png", "image/png"), (".jpg", "image/jpeg"),
   (".jpeg", "image/jpeg"), (".webp", "image/webp"), (".gif", "image/gif"),
   (".bmp", "image/bmp")]

/-- The content-type map as claim C9 states it: the first suffix of the table
that the lowercased name ends with determines the type, everything else is
`application/octet-stream`. -/
def guessSpec (name : String) : String :=
  match mimeTable.find? (fun p => (name.toLower).endsWith p.1) with
  | some p => p.2
  | none => "application/octet-stream"

/-! ## Cache entries and pipeline state

The cache is a directory per Document Fingerprint with four artifact files
(src/main.py lines 119-124): `parsed.md`, `parse_meta.json`, `extracted.json`,
`schema.hash`. A JSON artifact on disk either parses (`Blob.good`) or is
unreadable/corrupt (`Blob.corrupt`); the pipeline itself only ever writes
`good` blobs, `corrupt` models external corruption. `parsed.md` and
`schema.hash` are plain text. An absent file is `none`. -/

/-- Contents of a JSON artifact file: well-formed, or unreadable by `json.loads`. -/
inductive Blob where
  | good (j : Json)
  | corrupt

/-- One cache entry (the directory `CACHE_DIR / file_hash`). -/
structure Entry where
  parsedMd : Option String := none
  parseMeta : Option Blob := none
  extracted : Option Blob := none
  schemaHash : Option String := none

/-- The whole cache, keyed by Document Fingerprint. -/
def CacheMap := String → Entry

/-- Cache with no entries (every fingerprint maps to an entry with no artifacts). -/
def emptyCache : CacheMap := fun _ => {}

/-- Update the entry of one fingerprint. -/
def updateCache (c : CacheMap) (fp : String) (e : Entry) : CacheMap :=
  fun x => if x = fp then e else c x

/-- Field lookup in an object spine (first occurrence, like a Python dict). -/
def lookupObj : JObj → String → Option Json
  | .nil, _ => none
  | .cons k v t, key => if k = key then some v else lookupObj t key

/-- `x.get("extraction", x)` for a parsed JSON value `x` (src/main.py lines 183
and 209): for a dict, the `"extraction"` sub-field if the key exists, the whole
dict otherwise; for a non-dict value `.get` raises `AttributeError`, modeled as
`none`. -/
def extractField : Json → Option Json
  | .obj fs => some ((lookupObj fs "extraction").getD (.obj fs))
  | _ => none

/-- The extraction-cache lookup (src/main.py lines 177-186): the cached
extraction value is produced exactly when both `extracted.json` and
`schema.hash` exist, the stored hash equals the current schema hash, the
artifact parses as JSON and projecting `extraction` does not raise; every
failure along the way (including a raised exception inside the `try`) leaves
`need_extract = True`, i.e. yields `none`. -/
def get_extraction (e : Entry) (shash : String) : Option Json :=
  match e.extracted, e.schemaHash with
  | some b, some h =>
      if h = shash then
        match b with
        | .good j => extractField j
        | .corrupt => none
      else none
  | _, _ => none

/-- Outcome of the remote parse call for one invocation: transport/HTTP
failure (caught, lines 148-163), a 2xx response whose body is not valid JSON
(`parse_resp.json()` on line 165 is outside the `try` and raises), or a parsed
body with its `markdown` (defaulted to `""`) and `metadata` (defaulted to
`{}`) fields as normalized by lines 166-167. -/
inductive ParseOutcome where
  | fail
  | malformed
  | ok (markdown : String) (metadata : Json)

/-- Outcome of the remote extract call for one invocation: any exception inside
the `try` of lines 189-199 (transport, HTTP status, or malformed JSON body —
`extract_resp.json()` is inside the `try`), or the parsed JSON body. -/
inductive ExtractOutcome where
  | fail
  | ok (raw : Json)

/-- Terminal behavior of one invocation: a rendered result page with the
`markdown` (absent on the parse-failure early return, whose template context
has no `markdown` key), `parse_meta` and `extraction` values handed to the
template, or an exception escaping the handler. -/
inductive Outcome where
  | page (markdown : Option String) (parseMeta : Json) (extraction : Json)
  | crash

/-- Result of one invocation: terminal behavior, resulting cache, and whether
each remote capability was invoked. -/
structure StepRes where
  out : Outcome
  cache : CacheMap
  parseCalled : Bool
  extractCalled : Bool

/-- The parse-failure error payload `{"error": f"Parse failed: ..."}`. -/
def errParse : Json := .obj (.cons "error" (.str "Parse failed") .nil)

/-- The extract-failure error payload `{"error": f"Extract failed: ..."}`. -/
def errExtract : Json := .obj (.cons "error" (.str "Extract failed") .nil)

/-- The missing-markdown error payload (src/main.py line 212). -/
def errNoMd : Json := .obj (.cons "error" (.str "No markdown returned from parse") .nil)

/-- Parse metadata handed to the template on a parse cache hit (lines 132-136):
the parsed `parse_meta.json` if present and readable, else `{}`. -/
def metaOf (e : Entry) : Json :=
  match e.parseMeta with
  | some (.good j) => j
  | _ => .obj .nil

/-- The markdown handed to the template (lines 215-218): tag-stripped when
non-empty (`if markdown:`), unchanged when empty. -/
def renderMd (md : String) : String := if md = "" then md else stripTagsStr md

/-- The extract stage of one invocation (src/main.py lines 172-241), given the
markdown and parse metadata in hand after the parse stage. On an extraction
cache miss with non-empty markdown the remote extract is called; its result —
or, on failure, the error payload (`result = extraction  # fallback`) — is
written to `extracted.json` together with `schema.hash` (lines 207-208,
unconditionally), and then `result.get("extraction", result)` (line 209) is
surfaced; a non-dict `result` makes line 209 raise after the cache write. With
empty markdown the extract stage is skipped and the missing-markdown error is
surfaced. -/
def extractPhase (hashS : String → String) (c : CacheMap) (fp : String) (md : String)
    (pmeta : Json) (schema : Json) (er : ExtractOutcome) (pc : Bool) : StepRes :=
  match get_extraction (c fp) (hashS (canon schema)) with
  | some v =>
      if md = "" then
        { out := .page (some md) pmeta errNoMd, cache := c, parseCalled := pc, extractCalled := false }
      else
        { out := .page (some (renderMd md)) pmeta v, cache := c, parseCalled := pc, extractCalled := false }
  | none =>
      if md = "" then
        { out := .page (some md) pmeta errNoMd, cache := c, parseCalled := pc, extractCalled := false }
      else
        { out := match extractField (match er with | .fail => errExtract | .ok raw => raw) with
            | some v => .page (some (renderMd md)) pmeta v
            | none => .crash,
          cache := updateCache c fp
            { c fp with
              extracted := some (.good (match er with | .fail => errExtract | .ok raw => raw)),
              schemaHash := some (hashS (canon schema)) },
          parseCalled := pc, extractCalled := true }

/-- One invocation of the `upload` handler (src/main.py lines 100-241) against
a cache state. `hashB` models `hashlib.sha256(file_bytes).hexdigest()` (the
Document Fingerprint), `hashS` the schema hash. The handler in the source
reads the module-level `SCHEMA`; the schema is a parameter here, standing for
the configured schema at the time of this invocation (its fingerprint is
computed per invocation, line 174-175). If `parsed.md` exists the parse stage
is a cache hit; otherwise the remote parse is called: failure returns the
error page early (no cache write, and the template context carries no
markdown), a malformed body raises at line 165, and success writes `parsed.md`
(only when the markdown is non-empty, line 168) and `parse_meta.json`
(always, line 170). -/
def upload (hashB : List Nat → String) (hashS : String → String) (c : CacheMap)
    (fileBytes : List Nat) (schema : Json) (pr : ParseOutcome) (er : ExtractOutcome) : StepRes :=
  match (c (hashB fileBytes)).parsedMd with
  | some md =>
      extractPhase hashS c (hashB fileBytes) md (metaOf (c (hashB fileBytes))) schema er false
  | none =>
      match pr with
      | .fail =>
          { out := .page none (.obj .nil) errParse, cache := c,
            parseCalled := true, extractCalled := false }
      | .malformed =>
          { out := .crash, cache := c, parseCalled := true, extractCalled := false }
      | .ok md meta =>
          extractPhase hashS
            (updateCache c (hashB fileBytes)
              { c (hashB fileBytes) with parsedMd := if md = "" then none else some md,
                                         parseMeta := some (.good meta) })
            (hashB fileBytes) md meta schema er true

/-- One requested invocation: file bytes, the configured schema, and the
outcomes the two remote capabilities would produce if called. -/
structure Upl where
  fileBytes : List Nat
  schema : Json
  pr : ParseOutcome
  er : ExtractOutcome

/-- Run a sequence of invocations, threading the cache. -/
def runList (hashB : List Nat → String) (hashS : String → String) :
    CacheMap → List Upl → List StepRes × CacheMap
  | c, [] => ([], c)
  | c, i :: t =>
      let r := upload hashB hashS c i.fileBytes i.schema i.pr i.er
      let rest := runList hashB hashS r.cache t
      (r :: rest.1, rest.2)

/-- Number of remote parse calls in a run. -/
def countParse (rs : List StepRes) : Nat :=
  rs.foldr (fun r n => (if r.parseCalled then 1 else 0) + n) 0

/-- Number of remote extract calls in a run. -/
def countExtract (rs : List StepRes) : Nat :=
  rs.foldr (fun r n => (if r.extractCalled then 1 else 0) + n) 0

/-- Whether a JSON value is an object (a Python dict after `json.loads`). -/
def isObj : Json → Bool
  | .obj _ => true
  | _ => false

/-- The static extraction schema of src/main.py lines 27-77. -/
def SCHEMA : Json :=
  .obj (jobj
    [("type", .str "object"),
     ("title", .str "Extracted Markdown Document Data"),
     ("$schema", .str "http://json-schema.org/draft-07/schema#"),
     ("required", .arr (jarr [.str "patient_info", .str "report_dates",
        .str "test_results", .str "clinical_notes"])),
     ("properties", .obj (jobj
       [("patient_info", .obj (jobj
          [("type", .str "object"),
           ("required", .arr (jarr [.str "name", .str "age_gender", .str "report_ref_id",
              .str "patient_id", .str "collected_datetime"])),
           ("properties", .obj (jobj
             [("name", .obj (jobj [("type", .str "string")])),
              ("age_gender", .obj (jobj [("type", .str "string")])),
              ("patient_id", .obj (jobj [("type", .str "string")])),
              ("report_ref_id", .obj (jobj [("type", .str "string")])),
              ("collected_datetime", .obj (jobj [("type", .str "string")]))]))])),
        ("report_dates", .obj (jobj
          [("type", .str "object"),
           ("required", .arr (jarr [.str "received_datetime", .str "reported_datetime",
              .str "partner", .str "ref_by", .str "lab_name"])),
           ("properties", .obj (jobj
             [("ref_by", .obj (jobj [("type", .str "string")])),
              ("partner", .obj (jobj [("type", .str "string")])),
              ("lab_name", .obj (jobj [("type", .str "string")])),
              ("received_datetime", .obj (jobj [("type", .str "string")])),
              ("reported_datetime", .obj (jobj [("type", .str "string")]))]))])),
        ("test_results", .obj (jobj
          [("type", .str "array"),
           ("items", .obj (jobj
             [("type", .str "object"),
              ("required", .arr (jarr [.str "test_name", .str "result", .str "units",
                 .str "reference_interval"])),
              ("properties", .obj (jobj
                [("units", .obj (jobj [("type", .str "string")])),
                 ("result", .obj (jobj [("type", .str "string")])),
                 ("test_name", .obj (jobj [("type", .str "string")])),
                 ("reference_interval", .obj (jobj [("type", .str "string")]))]))]))])),
        ("clinical_notes", .obj (jobj
          [("type", .str "array"),
           ("items", .obj (jobj
             [("type", .str "object"),
              ("required", .arr (jarr [.str "note"])),
              ("properties", .obj (jobj
                [("note", .obj (jobj [("type", .str "string")]))]))]))]))]))])

/-! ## Canonical-serialization lemmas (claim C8) -/

/-- Inserting a field adds its size to the spine (auxiliary for termination). -/
theorem sizeOf_insertObj (k : String) (v : Json) : ∀ (t : JObj),
    sizeOf (insertObj k v t) = 1 + sizeOf k + sizeOf v + sizeOf t
  | .nil => by simp [insertObj]
  | .cons k' v' t => by
      have ih := sizeOf_insertObj k v t
      simp only [insertObj]
      by_cases h : keyLt k' k = true
      · simp [h, ih] <;> omega
      · simp [h] <;> omega

/-- Sorting an object spine preserves its size. -/
theorem sizeOf_sortObj : ∀ (t : JObj), sizeOf (sortObj t) = sizeOf t
  | .nil => rfl
  | .cons k v t => by
      have ih := sizeOf_sortObj t
      simp [sortObj, sizeOf_insertObj, ih]

/-- Serializing fields commutes with inserting a field in key order. -/
theorem canonObj_insertObj (k : String) (v : Json) : ∀ (t : JObj),
    canonObj (insertObj k v t) = insertPair (k, canon v) (canonObj t)
  | .nil => rfl
  | .cons k' v' t => by
      have ih := canonObj_insertObj k v t
      simp only [insertObj, canonObj, insertPair]
      by_cases h : keyLt k' k = true
      · simp [h, canonObj, ih]
      · simp [h, canonObj]

/-- Serializing fields commutes with sorting by key: sorting the object spine
first and then serializing matches serializing and then sorting the pairs. -/
theorem canonObj_sortObj : ∀ (f : JObj), canonObj (sortObj f) = sortPairs (canonObj f)
  | .nil => rfl
  | .cons k v t => by
      have ih := canonObj_sortObj t
      simp [sortObj, canonObj, sortPairs, canonObj_insertObj, ih, List.foldr]

mutual
/-- Structurally identical values (up to key insertion order) have equal
canonical serializations. -/
theorem canon_congr : ∀ {a b : Json}, StructEq a b → canon a = canon b
  | _, _, .null => rfl
  | _, _, .bool _ => rfl
  | _, _, .num _ => rfl
  | _, _, .str _ => rfl
  | _, _, .arr hl => by simp only [canon]; rw [canonList_congr hl]
  | _, _, .obj ho => by
      simp only [canon]
      rw [← canonObj_sortObj, ← canonObj_sortObj, canonObj_congr ho]
termination_by a b _ => sizeOf a
decreasing_by all_goals simp [sizeOf_sortObj] <;> omega
/-- Elementwise version of `canon_congr` for array spines. -/
theorem canonList_congr : ∀ {a b : JList}, StructEqL a b → canonList a = canonList b
  | _, _, .nil => rfl
  | _, _, .cons hh ht => by simp only [canonList]; rw [canon_congr hh, canonList_congr ht]
termination_by a b _ => sizeOf a
decreasing_by all_goals simp [sizeOf_sortObj] <;> omega
/-- Fieldwise version of `canon_congr` for object spines. -/
theorem canonObj_congr : ∀ {a b : JObj}, StructEqO a b → canonObj a = canonObj b
  | _, _, .nil => rfl
  | _, _, .cons k hv ht => by simp only [canonObj]; rw [canon_congr hv, canonObj_congr ht]
termination_by a b _ => sizeOf a
decreasing_by all_goals simp [sizeOf_sortObj] <;> omega
end

/-- C8: for every two schema objects that are structurally identical but
differ in key insertion order (at any nesting depth), the schema fingerprints
are equal: the fingerprint is a hash of the canonical, order-independent
serialization, so equality of the canonical serializations transfers to any
hash function. -/
theorem c8_schema_fingerprint_order_independent
    (hashS : String → String) (s1 s2 : Json) (h : StructEq s1 s2) :
    schema_fingerprint hashS s1 = schema_fingerprint hashS s2 :=
  congrArg hashS (canon_congr h)

/-- Witness for C8 at two concrete schemas with reordered keys at two nesting
depths. -/
theorem c8_witness :
    schema_fingerprint id
      (.obj (jobj [("b", .str "x"), ("a", .obj (jobj [("d", .str "1"), ("c", .str "2")]))]))
    = schema_fingerprint id
      (.obj (jobj [("a", .obj (jobj [("c", .str "2"), ("d", .str "1")])), ("b", .str "x")])) :=
  c8_schema_fingerprint_order_independent id _ _ (by
    refine StructEq.obj ?_
    show StructEqO (.cons "a" _ (.cons "b" _ .nil)) (.cons "a" _ (.cons "b" _ .nil))
    refine StructEqO.cons "a" (StructEq.obj ?_) (StructEqO.cons "b" (StructEq.str "x") StructEqO.nil)
    show StructEqO (.cons "c" _ (.cons "d" _ .nil)) (.cons "c" _ (.cons "d" _ .nil))
    exact StructEqO.cons "c" (StructEq.str "2") (StructEqO.cons "d" (StructEq.str "1") StructEqO.nil))

/-! ## Tag-stripping lemmas (claim C5) -/

/-- The head surviving a `dropWhile` fails the predicate. -/
theorem dropWhile_head_not (p : Char → Bool) : ∀ (l : List Char) (c : Char) (t : List Char),
    l.dropWhile p = c :: t → p c = false := by
  intro l
  induction l with
  | nil => intro c t h; simp [List.dropWhile] at h
  | cons a l ih =>
      intro c t h
      rw [List.dropWhile_cons] at h
      by_cases hp : p a = true
      · rw [if_pos hp] at h; exact ih c t h
      · rw [if_neg hp] at h
        cases h
        simpa using hp

/-- `dropWhile` is idempotent. -/
theorem dropWhile_twice (p : Char → Bool) (l : List Char) :
    (l.dropWhile p).dropWhile p = l.dropWhile p := by
  cases h : l.dropWhile p with
  | nil => rfl
  | cons c t =>
      have hc := dropWhile_head_not p l c t h
      rw [List.dropWhile_cons, if_neg (by simp [hc])]

/-- Python `str.strip()` is idempotent. -/
theorem pyStrip_idem (l : List Char) : pyStrip (pyStrip l) = pyStrip l := by
  unfold pyStrip
  have h1 : (((l.dropWhile pyWs).reverse.dropWhile pyWs).reverse).dropWhile pyWs
      = ((l.dropWhile pyWs).reverse.dropWhile pyWs).reverse := by
    cases hBr : ((l.dropWhile pyWs).reverse.dropWhile pyWs).reverse with
    | nil => rfl
    | cons c t =>
        obtain ⟨pre, hpre⟩ := List.dropWhile_suffix (l := (l.dropWhile pyWs).reverse) pyWs
        have hA : l.dropWhile pyWs
            = ((l.dropWhile pyWs).reverse.dropWhile pyWs).reverse ++ pre.reverse := by
          have h2 := congrArg List.reverse hpre
          simpa [List.reverse_append] using h2.symm
        rw [hBr] at hA
        have hc : pyWs c = false :=
          dropWhile_head_not pyWs l c (t ++ pre.reverse) (by simpa using hA)
        rw [List.dropWhile_cons, if_neg (by simp [hc])]
  rw [h1, List.reverse_reverse, dropWhile_twice]

/-- If no `<::...::>` span occurs in the list, tag removal (at any fuel) is
the identity. -/
theorem removeTagsF_no_tag : ∀ (l : List Char), hasTag l = false →
    ∀ (f : Nat), removeTagsF f l = l := by
  intro l
  induction l with
  | nil => intro _ f; cases f <;> rfl
  | cons c cs ih =>
      intro h f
      have h1 : isTagStart (c :: cs) = false ∧ hasTag cs = false := by
        have := h
        simp only [hasTag, Bool.or_eq_false_iff] at this
        exact this
      cases f with
      | zero => rfl
      | succ f =>
          simp only [removeTagsF]
          by_cases hc : c = '<' ∧ cs.take 2 = [':', ':']
          · have hfc : (findCloser (cs.drop 2)).isSome = false := by
              have h2 := h1.1
              simp only [isTagStart] at h2
              simpa [hc] using h2
            rw [if_pos hc]
            cases hfc2 : findCloser (cs.drop 2) with
            | some t => rw [hfc2] at hfc; simp at hfc
            | none => simp [ih h1.2 f]
          · rw [if_neg hc]
            simp [ih h1.2 f]

/-- If no `<::...::>` span occurs in the list, `removeTags` is the identity. -/
theorem removeTags_no_tag (l : List Char) (h : hasTag l = false) : removeTags l = l :=
  removeTagsF_no_tag l h l.length

/-- C5 (amended): the tag-stripping transform is idempotent on every string
whose one-pass output contains no `<::...::>` span; the trim part is always
idempotent, and a span-free output is a fixed point of span removal. (In
general one pass can leave a span behind, see the counterexample.) -/
theorem c5_stripTags_idem_of_no_tag (m : List Char) (h : hasTag (stripTags m) = false) :
    stripTags (stripTags m) = stripTags m := by
  show pyStrip (removeTags (stripTags m)) = stripTags m
  rw [removeTags_no_tag _ h]
  show pyStrip (pyStrip (removeTags m)) = pyStrip (removeTags m)
  exact pyStrip_idem _

/-- Witness for C5 (amended) at a concrete markdown string with one tag. -/
theorem c5_witness :
    hasTag (stripTags (' ' :: 'a' :: '<' :: ':' :: ':' :: 'x' :: ':' :: ':' :: '>' :: 'b' :: [])) = false
    ∧ stripTags (stripTags (' ' :: 'a' :: '<' :: ':' :: ':' :: 'x' :: ':' :: ':' :: '>' :: 'b' :: []))
      = stripTags (' ' :: 'a' :: '<' :: ':' :: ':' :: 'x' :: ':' :: ':' :: '>' :: 'b' :: []) :=
  ⟨by decide, c5_stripTags_idem_of_no_tag _ (by decide)⟩

/-- Counterexample to C5 as stated: on `"<:<::a::>:b::>"` one application of
the transform removes `<::a::>` and thereby splices together the new span
`<::b::>`, so the output still contains a `<::...::>` span and a second
application changes it (to the empty string): the transform is not idempotent
and its output is not always span-free. -/
theorem c5_counterexample :
    stripTags
        ('<' :: ':' :: '<' :: ':' :: ':' :: 'a' :: ':' :: ':' :: '>' :: ':' :: 'b' :: ':' :: ':' :: '>' :: [])
      = ('<' :: ':' :: ':' :: 'b' :: ':' :: ':' :: '>' :: [])
    ∧ stripTags (stripTags
        ('<' :: ':' :: '<' :: ':' :: ':' :: 'a' :: ':' :: ':' :: '>' :: ':' :: 'b' :: ':' :: ':' :: '>' :: []))
      = []
    ∧ hasTag (stripTags
        ('<' :: ':' :: '<' :: ':' :: ':' :: 'a' :: ':' :: ':' :: '>' :: ':' :: 'b' :: ':' :: ':' :: '>' :: []))
      = true := by decide

/-! ## Content-type guesser (claim C9) -/

/-- C9: the content-type guesser is a total function of the filename agreeing
with the suffix table of the claim (first matching suffix of the lowercased
name, in the order .pdf, .png, .jpg, .jpeg, .webp, .gif, .bmp, with
`application/octet-stream` for every other name), and it always returns one of
the seven fixed MIME types. -/
theorem c9_guess_content_type_total (name : String) :
    _guess_content_type name = guessSpec name
    ∧ _guess_content_type name ∈ ["application/pdf", "image/png", "image/jpeg",
        "image/webp", "image/gif", "image/bmp", "application/octet-stream"] := by
  unfold _guess_content_type guessSpec mimeTable
  simp only [List.find?]
  cases h1 : (name.toLower).endsWith ".pdf" <;>
  cases h2 : (name.toLower).endsWith ".png" <;>
  cases h3 : (name.toLower).endsWith ".jpg" <;>
  cases h4 : (name.toLower).endsWith ".jpeg" <;>
  cases h5 : (name.toLower).endsWith ".webp" <;>
  cases h6 : (name.toLower).endsWith ".gif" <;>
  cases h7 : (name.toLower).endsWith ".bmp" <;>
  simp [h1, h2, h3, h4, h5, h6, h7]

/-! ## Pipeline lemmas -/

/-- Reading the updated fingerprint returns the new entry. -/
theorem updateCache_self (c : CacheMap) (fp : String) (e : Entry) :
    updateCache c fp e fp = e := by simp [updateCache]

/-- Reading any other fingerprint is unchanged. -/
theorem updateCache_other (c : CacheMap) (fp : String) (e : Entry) (x : String)
    (hx : x ≠ fp) : updateCache c fp e x = c x := by simp [updateCache, hx]

/-- The extract stage reports the parse-called flag it was given. -/
theorem extractPhase_parseCalled (hashS : String → String) (c : CacheMap) (fp md : String)
    (pmeta schema : Json) (er : ExtractOutcome) (pc : Bool) :
    (extractPhase hashS c fp md pmeta schema er pc).parseCalled = pc := by
  unfold extractPhase
  cases hge : get_extraction (c fp) (hashS (canon schema)) <;>
    by_cases hmd : md = "" <;> simp [hge, hmd]

/-- The extract stage never touches entries of other fingerprints. -/
theorem extractPhase_cache_other (hashS : String → String) (c : CacheMap) (fp md : String)
    (pmeta schema : Json) (er : ExtractOutcome) (pc : Bool) (x : String) (hx : x ≠ fp) :
    (extractPhase hashS c fp md pmeta schema er pc).cache x = c x := by
  unfold extractPhase
  cases hge : get_extraction (c fp) (hashS (canon schema)) <;>
    by_cases hmd : md = "" <;> simp [hge, hmd, updateCache_other, hx]

/-- The extract stage never writes `parsed.md` or `parse_meta.json`. -/
theorem extractPhase_preserves_parse (hashS : String → String) (c : CacheMap) (fp md : String)
    (pmeta schema : Json) (er : ExtractOutcome) (pc : Bool) (x : String) :
    ((extractPhase hashS c fp md pmeta schema er pc).cache x).parsedMd = (c x).parsedMd
    ∧ ((extractPhase hashS c fp md pmeta schema er pc).cache x).parseMeta = (c x).parseMeta := by
  unfold extractPhase
  cases hge : get_extraction (c fp) (hashS (canon schema)) <;>
    by_cases hmd : md = "" <;> by_cases hx : x = fp <;>
      simp [hge, hmd, hx, updateCache_self, updateCache_other]

/-- Whenever the extract stage renders a page, its markdown is the
(tag-stripped) markdown in hand. -/
theorem extractPhase_out_md (hashS : String → String) (c : CacheMap) (fp md : String)
    (pmeta schema : Json) (er : ExtractOutcome) (pc : Bool) :
    ∀ mo pm y, (extractPhase hashS c fp md pmeta schema er pc).out = .page mo pm y →
      mo = some (renderMd md) := by
  intro mo pm y h
  unfold extractPhase at h
  cases hge : get_extraction (c fp) (hashS (canon schema)) with
  | some v =>
      rw [hge] at h
      by_cases hmd : md = ""
      · simp [hmd] at h; rw [← h.1]; simp [renderMd, hmd]
      · simp [hmd] at h; rw [← h.1]
  | none =>
      rw [hge] at h
      by_cases hmd : md = ""
      · simp [hmd] at h; rw [← h.1]; simp [renderMd, hmd]
      · rw [if_neg hmd] at h
        cases er with
        | fail =>
            rw [show extractField errExtract = some errExtract from rfl] at h
            simp at h; rw [← h.1]
        | ok raw =>
            cases hef : extractField raw with
            | some v => rw [hef] at h; simp at h; rw [← h.1]
            | none => rw [hef] at h; simp at h

/-- On a parse cache hit, the upload is exactly the extract stage over the
cached markdown and metadata. -/
theorem upload_parse_hit_eq (hashB : List Nat → String) (hashS : String → String)
    (c : CacheMap) (b : List Nat) (schema : Json) (pr : ParseOutcome) (er : ExtractOutcome)
    (md : String) (hmd : (c (hashB b)).parsedMd = some md) :
    upload hashB hashS c b schema pr er
      = extractPhase hashS c (hashB b) md (metaOf (c (hashB b))) schema er false := by
  unfold upload
  rw [hmd]

/-- On a parse cache miss with a successful parse response, the upload writes
the parse artifacts (markdown only when non-empty) and runs the extract stage. -/
theorem upload_fresh_ok_eq (hashB : List Nat → String) (hashS : String → String)
    (c : CacheMap) (b : List Nat) (schema : Json) (er : ExtractOutcome)
    (md : String) (meta : Json) (hmd : (c (hashB b)).parsedMd = none) :
    upload hashB hashS c b schema (.ok md meta) er
      = extractPhase hashS
          (updateCache c (hashB b)
            { c (hashB b) with parsedMd := if md = "" then none else some md,
                               parseMeta := some (.good meta) })
          (hashB b) md meta schema er true := by
  unfold upload
  rw [hmd]

/-- On a parse cache miss with a failing parse call, the upload returns the
error page without touching the cache. -/
theorem upload_parse_fail_eq (hashB : List Nat → String) (hashS : String → String)
    (c : CacheMap) (b : List Nat) (schema : Json) (er : ExtractOutcome)
    (hmd : (c (hashB b)).parsedMd = none) :
    upload hashB hashS c b schema .fail er
      = { out := .page none (.obj .nil) errParse, cache := c,
          parseCalled := true, extractCalled := false } := by
  unfold upload
  rw [hmd]

/-- On a parse cache miss with a malformed parse body, the upload raises. -/
theorem upload_parse_malformed_eq (hashB : List Nat → String) (hashS : String → String)
    (c : CacheMap) (b : List Nat) (schema : Json) (er : ExtractOutcome)
    (hmd : (c (hashB b)).parsedMd = none) :
    upload hashB hashS c b schema .malformed er
      = { out := .crash, cache := c, parseCalled := true, extractCalled := false } := by
  unfold upload
  rw [hmd]

/-- The upload never touches entries of other fingerprints. -/
theorem upload_cache_other (hashB : List Nat → String) (hashS : String → String)
    (c : CacheMap) (b : List Nat) (schema : Json) (pr : ParseOutcome) (er : ExtractOutcome)
    (x : String) (hx : x ≠ hashB b) :
    (upload hashB hashS c b schema pr er).cache x = c x := by
  cases hmd : (c (hashB b)).parsedMd with
  | some md =>
      rw [upload_parse_hit_eq hashB hashS c b schema pr er md hmd]
      exact extractPhase_cache_other _ _ _ _ _ _ _ _ x hx
  | none =>
      cases pr with
      | fail => rw [upload_parse_fail_eq hashB hashS c b schema er hmd]
      | malformed => rw [upload_parse_malformed_eq hashB hashS c b schema er hmd]
      | ok md meta =>
          rw [upload_fresh_ok_eq hashB hashS c b schema er md meta hmd]
          rw [extractPhase_cache_other _ _ _ _ _ _ _ _ x hx]
          exact updateCache_other _ _ _ _ hx

/-- Once `parsed.md` and `parse_meta.json` exist for a fingerprint, no upload
changes either of them. -/
theorem upload_preserves_parse_artifacts (hashB : List Nat → String) (hashS : String → String)
    (c : CacheMap) (b : List Nat) (schema : Json) (pr : ParseOutcome) (er : ExtractOutcome)
    (x : String) (md : String) (hp : (c x).parsedMd = some md) :
    ((upload hashB hashS c b schema pr er).cache x).parsedMd = some md
    ∧ ((upload hashB hashS c b schema pr er).cache x).parseMeta = (c x).parseMeta := by
  by_cases hx : x = hashB b
  · subst hx
    rw [upload_parse_hit_eq hashB hashS c b schema pr er md hp]
    have h := extractPhase_preserves_parse hashS c (hashB b) md (metaOf (c (hashB b)))
      schema er false (hashB b)
    exact ⟨h.1.trans hp, h.2⟩
  · rw [upload_cache_other hashB hashS c b schema pr er x hx]
    exact ⟨hp, rfl⟩

/-- On a parse cache hit the remote parse is not called, the parse artifacts
are untouched everywhere, and any rendered page carries the cached markdown
(post-tag-stripping). -/
theorem upload_parse_hit_props (hashB : List Nat → String) (hashS : String → String)
    (c : CacheMap) (b : List Nat) (schema : Json) (pr : ParseOutcome) (er : ExtractOutcome)
    (md : String) (hmd : (c (hashB b)).parsedMd = some md) :
    (upload hashB hashS c b schema pr er).parseCalled = false
    ∧ ((upload hashB hashS c b schema pr er).cache (hashB b)).parsedMd = some md
    ∧ ∀ mo pm y, (upload hashB hashS c b schema pr er).out = .page mo pm y →
        mo = some (renderMd md) := by
  rw [upload_parse_hit_eq hashB hashS c b schema pr er md hmd]
  refine ⟨extractPhase_parseCalled _ _ _ _ _ _ _ _, ?_, extractPhase_out_md _ _ _ _ _ _ _ _⟩
  rw [(extractPhase_preserves_parse hashS c (hashB b) md (metaOf (c (hashB b)))
    schema er false (hashB b)).1]
  exact hmd

/-- On an extraction cache miss with non-empty markdown, the extract stage
calls the remote extract and unconditionally persists the raw result (the
error payload on failure) together with the schema hash, then surfaces
`result.get("extraction", result)` (raising on a non-dict result). -/
theorem extractPhase_miss_call (hashS : String → String) (c : CacheMap) (fp md : String)
    (pmeta schema : Json) (er : ExtractOutcome) (pc : Bool)
    (hmiss : get_extraction (c fp) (hashS (canon schema)) = none) (hne : md ≠ "") :
    extractPhase hashS c fp md pmeta schema er pc
      = { out := match extractField (match er with | .fail => errExtract | .ok raw => raw) with
            | some v => .page (some (renderMd md)) pmeta v
            | none => .crash,
          cache := updateCache c fp
            { c fp with
              extracted := some (.good (match er with | .fail => errExtract | .ok raw => raw)),
              schemaHash := some (hashS (canon schema)) },
          parseCalled := pc, extractCalled := true } := by
  unfold extractPhase
  rw [hmiss, if_neg hne]

/-- The extract stage renders a page (never raises) whenever any successful
extract response is a JSON object. -/
theorem extractPhase_page (hashS : String → String) (c : CacheMap) (fp md : String)
    (pmeta schema : Json) (er : ExtractOutcome) (pc : Bool)
    (her : ∀ raw, er = .ok raw → isObj raw = true) :
    ∃ mo pm y, (extractPhase hashS c fp md pmeta schema er pc).out = .page mo pm y := by
  unfold extractPhase
  cases hge : get_extraction (c fp) (hashS (canon schema)) with
  | some v => by_cases hmd : md = "" <;> simp [hmd]
  | none =>
      by_cases hmd : md = ""
      · simp [hmd]
      · rw [if_neg hmd]
        cases er with
        | fail => exact ⟨_, _, _, rfl⟩
        | ok raw =>
            have hraw := her raw rfl
            cases raw <;> simp [isObj] at hraw
            simp [extractField]

/-- A parse cache hit followed by an extraction cache miss (with non-empty
markdown): parse is not called, extract is called, and the entry receives the
current schema hash and a well-formed extraction artifact while keeping its
parsed markdown. -/
theorem upload_hit_extract_call (hashB : List Nat → String) (hashS : String → String)
    (c : CacheMap) (b : List Nat) (schema : Json) (pr : ParseOutcome) (er : ExtractOutcome)
    (md : String) (hmd : (c (hashB b)).parsedMd = some md) (hne : md ≠ "")
    (hmiss : get_extraction (c (hashB b)) (hashS (canon schema)) = none) :
    (upload hashB hashS c b schema pr er).parseCalled = false
    ∧ (upload hashB hashS c b schema pr er).extractCalled = true
    ∧ ((upload hashB hashS c b schema pr er).cache (hashB b)).parsedMd = some md
    ∧ ((upload hashB hashS c b schema pr er).cache (hashB b)).schemaHash
        = some (hashS (canon schema))
    ∧ ∃ j, ((upload hashB hashS c b schema pr er).cache (hashB b)).extracted
        = some (.good j) := by
  rw [upload_parse_hit_eq hashB hashS c b schema pr er md hmd,
    extractPhase_miss_call hashS c (hashB b) md (metaOf (c (hashB b))) schema er false hmiss hne]
  refine ⟨rfl, rfl, ?_, ?_, ?_⟩ <;> simp [updateCache_self, hmd]

/-- A parse cache miss with a successful non-empty parse over an entry with no
extraction artifact: both remote calls happen and all four artifact slots are
written. -/
theorem upload_fresh_extract_call (hashB : List Nat → String) (hashS : String → String)
    (c : CacheMap) (b : List Nat) (schema : Json) (er : ExtractOutcome)
    (md : String) (meta : Json) (hmd0 : (c (hashB b)).parsedMd = none) (hne : md ≠ "")
    (hext0 : (c (hashB b)).extracted = none) :
    (upload hashB hashS c b schema (.ok md meta) er).parseCalled = true
    ∧ (upload hashB hashS c b schema (.ok md meta) er).extractCalled = true
    ∧ ((upload hashB hashS c b schema (.ok md meta) er).cache (hashB b)).parsedMd = some md
    ∧ ((upload hashB hashS c b schema (.ok md meta) er).cache (hashB b)).schemaHash
        = some (hashS (canon schema))
    ∧ ∃ j, ((upload hashB hashS c b schema (.ok md meta) er).cache (hashB b)).extracted
        = some (.good j) := by
  rw [upload_fresh_ok_eq hashB hashS c b schema er md meta hmd0]
  have hmiss : get_extraction
      (updateCache c (hashB b)
        { c (hashB b) with parsedMd := if md = "" then none else some md,
                           parseMeta := some (.good meta) } (hashB b))
      (hashS (canon schema)) = none := by
    rw [updateCache_self]
    simp [get_extraction, hext0]
  rw [extractPhase_miss_call hashS _ (hashB b) md meta schema er true hmiss hne]
  refine ⟨rfl, rfl, ?_, ?_, ?_⟩ <;> simp [updateCache_self, hne]

/-! ## Claim C1 -/

/-- Counterexample to C1 as stated: starting from an entry holding only parsed
markdown (`"m"`), an invocation whose extract call fails leaves the
extraction-result slot and schema-fingerprint slot CHANGED: the error
descriptor is written to the cache (src/main.py lines 207-208 run outside the
`try`/`except`, and `result = extraction  # fallback` on line 204 feeds the
error payload into the cache write). -/
theorem c1_counterexample :
    ((updateCache emptyCache "fp" { parsedMd := some "m" }) "fp").extracted = none
    ∧ ((updateCache emptyCache "fp" { parsedMd := some "m" }) "fp").schemaHash = none
    ∧ ((upload (fun _ => "fp") id (updateCache emptyCache "fp" { parsedMd := some "m" })
        [0] (.obj .nil) .fail .fail).cache "fp").extracted = some (.good errExtract)
    ∧ ((upload (fun _ => "fp") id (updateCache emptyCache "fp" { parsedMd := some "m" })
        [0] (.obj .nil) .fail .fail).cache "fp").schemaHash = some (canon (Json.obj .nil)) :=
  ⟨rfl, rfl, rfl, rfl⟩

/-- C1 (amended): if the remote extract call fails during an invocation, the
invocation reaches the terminal extract-failed state and still returns a
result page (markdown plus the `Extract failed` error descriptor as its
extraction value); however persistence is NOT success-only: the error
descriptor is written to the extraction-result slot, and the schema
fingerprint to the schema-fingerprint slot, exactly as on success. -/
theorem c1_extract_fail_returns_and_persists_error
    (hashB : List Nat → String) (hashS : String → String) (c : CacheMap) (b : List Nat)
    (schema : Json) (pr : ParseOutcome) (md : String)
    (hmd : (c (hashB b)).parsedMd = some md) (hne : md ≠ "")
    (hmiss : get_extraction (c (hashB b)) (hashS (canon schema)) = none) :
    (upload hashB hashS c b schema pr .fail).out
      = .page (some (stripTagsStr md)) (metaOf (c (hashB b))) errExtract
    ∧ ((upload hashB hashS c b schema pr .fail).cache (hashB b)).extracted
      = some (.good errExtract)
    ∧ ((upload hashB hashS c b schema pr .fail).cache (hashB b)).schemaHash
      = some (hashS (canon schema))
    ∧ (upload hashB hashS c b schema pr .fail).extractCalled = true := by
  rw [upload_parse_hit_eq hashB hashS c b schema pr .fail md hmd,
    extractPhase_miss_call hashS c (hashB b) md (metaOf (c (hashB b))) schema .fail false hmiss hne]
  refine ⟨?_, ?_, ?_, rfl⟩
  · show (match extractField errExtract with
      | some v => Outcome.page (some (renderMd md)) (metaOf (c (hashB b))) v
      | none => Outcome.crash) = _
    rw [show extractField errExtract = some errExtract from rfl]
    simp [renderMd, hne]
  · simp [updateCache_self]
  · simp [updateCache_self]

/-- Witness for C1 (amended) at a concrete cache state. -/
theorem c1_witness :
    (upload (fun _ => "fp") id (updateCache emptyCache "fp" { parsedMd := some "m" })
      [0] (.obj .nil) .fail .fail).out
      = .page (some (stripTagsStr "m")) (metaOf ((updateCache emptyCache "fp"
          { parsedMd := some "m" }) "fp")) errExtract
    ∧ ((upload (fun _ => "fp") id (updateCache emptyCache "fp" { parsedMd := some "m" })
        [0] (.obj .nil) .fail .fail).cache "fp").extracted = some (.good errExtract)
    ∧ ((upload (fun _ => "fp") id (updateCache emptyCache "fp" { parsedMd := some "m" })
        [0] (.obj .nil) .fail .fail).cache "fp").schemaHash = some (id (canon (Json.obj .nil)))
    ∧ (upload (fun _ => "fp") id (updateCache emptyCache "fp" { parsedMd := some "m" })
        [0] (.obj .nil) .fail .fail).extractCalled = true :=
  c1_extract_fail_returns_and_persists_error (fun _ => "fp") id
    (updateCache emptyCache "fp" { parsedMd := some "m" }) [0] (.obj .nil) .fail "m"
    rfl (by decide) rfl

/-! ## Claim C3 -/

/-- Counterexample to C3 as stated: a remote parse response that is malformed
(2xx status but a body `json.loads` cannot parse) makes `parse_resp.json()` on
line 165 — which sits outside the `try`/`except` of lines 138-163 — raise, and
the exception escapes to the caller instead of a result object. -/
theorem c3_counterexample :
    (upload (fun _ => "fp") id emptyCache [1] (.obj .nil) .malformed .fail).out
      = Outcome.crash := rfl

/-- C3 (amended): every invocation returns a well-formed result page and no
exception escapes, provided a successful parse response has a valid JSON body
and a successful extract response is a JSON object; remote-call failures are
surfaced only as data. On the parse-failure path the result carries empty
parse metadata and the `Parse failed` error descriptor as its extraction value
(and its template context has no markdown field); a malformed parse body (and
a non-object extract body, after the cache write) instead raises. -/
theorem c3_always_returns_result
    (hashB : List Nat → String) (hashS : String → String) (c : CacheMap) (b : List Nat)
    (schema : Json) (pr : ParseOutcome) (er : ExtractOutcome)
    (hpr : pr ≠ ParseOutcome.malformed)
    (her : ∀ raw, er = .ok raw → isObj raw = true) :
    (∃ mo pm x, (upload hashB hashS c b schema pr er).out = .page mo pm x)
    ∧ ((c (hashB b)).parsedMd = none → pr = .fail →
        (upload hashB hashS c b schema pr er).out = .page none (.obj .nil) errParse) := by
  constructor
  · cases hmd : (c (hashB b)).parsedMd with
    | some md =>
        rw [upload_parse_hit_eq hashB hashS c b schema pr er md hmd]
        exact extractPhase_page hashS c (hashB b) md (metaOf (c (hashB b))) schema er false her
    | none =>
        cases pr with
        | fail =>
            rw [upload_parse_fail_eq hashB hashS c b schema er hmd]
            exact ⟨_, _, _, rfl⟩
        | malformed => exact absurd rfl hpr
        | ok md meta =>
            rw [upload_fresh_ok_eq hashB hashS c b schema er md meta hmd]
            exact extractPhase_page hashS _ (hashB b) md meta schema er true her
  · intro hmd hpr2
    subst hpr2
    rw [upload_parse_fail_eq hashB hashS c b schema er hmd]

/-- Witness for C3 (amended): a failing parse call from an empty cache still
yields the error result page. -/
theorem c3_witness :
    (∃ mo pm x, (upload (fun _ => "fp") id emptyCache [1] (.obj .nil) .fail .fail).out
        = .page mo pm x)
    ∧ ((upload (fun _ => "fp") id emptyCache [1] (.obj .nil) .fail .fail).out
        = .page none (.obj .nil) errParse) := by
  have h := c3_always_returns_result (fun _ => "fp") id emptyCache [1] (.obj .nil) .fail .fail
    (fun hh => ParseOutcome.noConfusion hh) (fun raw hh => ExtractOutcome.noConfusion hh)
  exact ⟨h.1, h.2 rfl rfl⟩

/-! ## Claim C4 -/

/-- C4: once both the Parsed Markdown artifact and the Parse Metadata artifact
exist for a Document Fingerprint, no sequence of later invocations (any bytes,
schemas, or remote outcomes) ever changes either of them: writes to the two
parse artifacts happen only on the parse-call path, which is taken only when
`parsed.md` does not exist, and the extract stage writes only the extraction
and schema-hash slots. -/
theorem c4_parse_artifacts_never_overwritten (hashB : List Nat → String)
    (hashS : String → String) :
    ∀ (invs : List Upl) (c : CacheMap) (fp : String) (md : String) (pm : Blob),
    (c fp).parsedMd = some md → (c fp).parseMeta = some pm →
    ((runList hashB hashS c invs).2 fp).parsedMd = some md
    ∧ ((runList hashB hashS c invs).2 fp).parseMeta = some pm
  | [], c, fp, md, pm, h1, h2 => ⟨h1, h2⟩
  | i :: t, c, fp, md, pm, h1, h2 => by
      have step := upload_preserves_parse_artifacts hashB hashS c i.fileBytes i.schema
        i.pr i.er fp md h1
      have ih := c4_parse_artifacts_never_overwritten hashB hashS t
        (upload hashB hashS c i.fileBytes i.schema i.pr i.er).cache fp md pm
        step.1 (step.2.trans h2)
      simpa [runList] using ih

/-- Witness for C4: a concrete entry with both parse artifacts survives a
two-invocation run (same fingerprint, then a different one) unchanged. -/
theorem c4_witness :
    ((runList (fun bs => if bs = [1] then "fp" else "other") id
        (updateCache emptyCache "fp"
          { parsedMd := some "m", parseMeta := some (.good (.obj .nil)) })
        [⟨[1], .obj .nil, .ok "x" (.obj .nil), .fail⟩,
         ⟨[2], .obj .nil, .ok "y" (.obj .nil), .fail⟩]).2 "fp").parsedMd = some "m"
    ∧ ((runList (fun bs => if bs = [1] then "fp" else "other") id
        (updateCache emptyCache "fp"
          { parsedMd := some "m", parseMeta := some (.good (.obj .nil)) })
        [⟨[1], .obj .nil, .ok "x" (.obj .nil), .fail⟩,
         ⟨[2], .obj .nil, .ok "y" (.obj .nil), .fail⟩]).2 "fp").parseMeta
      = some (.good (.obj .nil)) :=
  c4_parse_artifacts_never_overwritten (fun bs => if bs = [1] then "fp" else "other") id
    [⟨[1], .obj .nil, .ok "x" (.obj .nil), .fail⟩,
     ⟨[2], .obj .nil, .ok "y" (.obj .nil), .fail⟩]
    (updateCache emptyCache "fp"
      { parsedMd := some "m", parseMeta := some (.good (.obj .nil)) })
    "fp" "m" (.good (.obj .nil)) rfl rfl

/-! ## Claim C7 -/

/-- C7: the extraction-cache lookup returns the cached value exactly when the
extraction artifact and a stored schema fingerprint both exist, the stored
fingerprint equals the requested one, the artifact parses as JSON and
projecting its `extraction` value does not raise; every other condition
(missing artifact, missing fingerprint, unreadable JSON, mismatched
fingerprint) yields absence rather than an error, and absence (with markdown
in hand) triggers the remote extract call. -/
theorem c7_get_extraction_characterization (e : Entry) (sh : String) :
    ((∀ j, e.extracted = some (.good j) → e.schemaHash = some sh →
        get_extraction e sh = extractField j)
     ∧ (e.extracted = none → get_extraction e sh = none)
     ∧ (e.schemaHash = none → get_extraction e sh = none)
     ∧ (e.extracted = some .corrupt → get_extraction e sh = none)
     ∧ (∀ h0, e.schemaHash = some h0 → h0 ≠ sh → get_extraction e sh = none)
     ∧ (get_extraction e sh ≠ none ↔ ∃ j, e.extracted = some (.good j)
          ∧ e.schemaHash = some sh ∧ extractField j ≠ none))
    ∧ ∀ (hashB : List Nat → String) (hashS : String → String) (c : CacheMap) (b : List Nat)
        (schema : Json) (md : String) (pr : ParseOutcome) (er : ExtractOutcome),
        (c (hashB b)).parsedMd = some md → md ≠ "" →
        get_extraction (c (hashB b)) (hashS (canon schema)) = none →
        (upload hashB hashS c b schema pr er).extractCalled = true := by
  constructor
  · obtain ⟨pmd, pme, ex, shh⟩ := e
    refine ⟨?_, ?_, ?_, ?_, ?_, ?_⟩ <;>
      cases ex with
      | none => simp [get_extraction]
      | some bl =>
          cases bl <;> cases shh with
          | none => simp [get_extraction]
          | some h0 =>
              by_cases hh : h0 = sh <;>
                simp_all [get_extraction]
  · intro hashB hashS c b schema md pr er hmd hne hmiss
    rw [upload_parse_hit_eq hashB hashS c b schema pr er md hmd,
      extractPhase_miss_call hashS c (hashB b) md (metaOf (c (hashB b))) schema er false
        hmiss hne]

/-- Witness for C7: a concrete hit (artifact and matching fingerprint present)
returns the `extraction` sub-field, and a concrete miss (no artifact) triggers
the extract call. -/
theorem c7_witness :
    get_extraction
      { parsedMd := some "m", parseMeta := none,
        extracted := some (.good (.obj (.cons "extraction" (.str "v") .nil))),
        schemaHash := some "h" } "h"
      = some (.str "v")
    ∧ (upload (fun _ => "fp") id (updateCache emptyCache "fp" { parsedMd := some "m" })
        [0] (.obj .nil) .fail .fail).extractCalled = true := by
  have h := c7_get_extraction_characterization
    { parsedMd := some "m", parseMeta := none,
      extracted := some (.good (.obj (.cons "extraction" (.str "v") .nil))),
      schemaHash := some "h" } "h"
  refine ⟨(h.1.1 _ rfl rfl).trans rfl, ?_⟩
  exact h.2 (fun _ => "fp") id (updateCache emptyCache "fp" { parsedMd := some "m" })
    [0] (.obj .nil) "m" .fail .fail rfl (by decide) rfl

/-! ## Claim C10 -/

/-- C10: the surfaced extraction value is `x.get("extraction", x)` — the
`extraction` sub-field when the key exists, otherwise the whole response
object — and the same projection `extractField` is applied on the cache-hit
read path (line 183) and on the fresh remote-extract path (line 209). -/
theorem c10_extraction_field_fallback (raw : Json) (fs : JObj) (e : Entry) (sh : String) :
    (extractField (.obj fs) = some ((lookupObj fs "extraction").getD (.obj fs)))
    ∧ (e.extracted = some (.good raw) → e.schemaHash = some sh →
        get_extraction e sh = extractField raw)
    ∧ ∀ (hashB : List Nat → String) (hashS : String → String) (c : CacheMap) (b : List Nat)
        (schema : Json) (md : String) (pr : ParseOutcome),
        (c (hashB b)).parsedMd = some md → md ≠ "" →
        get_extraction (c (hashB b)) (hashS (canon schema)) = none →
        ∀ v, extractField raw = some v →
        (upload hashB hashS c b schema pr (.ok raw)).out
          = .page (some (stripTagsStr md)) (metaOf (c (hashB b))) v := by
  refine ⟨rfl, ?_, ?_⟩
  · intro h1 h2
    simp [get_extraction, h1, h2]
  · intro hashB hashS c b schema md pr hmd hne hmiss v hv
    rw [upload_parse_hit_eq hashB hashS c b schema pr (.ok raw) md hmd,
      extractPhase_miss_call hashS c (hashB b) md (metaOf (c (hashB b))) schema (.ok raw) false
        hmiss hne]
    show (match extractField raw with
      | some v => Outcome.page (some (renderMd md)) (metaOf (c (hashB b))) v
      | none => Outcome.crash) = _
    rw [hv]
    simp [renderMd, hne]

/-- Witness for C10: with a response carrying an `extraction` key, the cache
read path and the fresh path surface the same sub-field. -/
theorem c10_witness :
    get_extraction
      { parsedMd := none, parseMeta := none,
        extracted := some (.good (.obj (.cons "extraction" (.str "E") .nil))),
        schemaHash := some "h" } "h"
      = extractField (.obj (.cons "extraction" (.str "E") .nil))
    ∧ (upload (fun _ => "fp") id (updateCache emptyCache "fp" { parsedMd := some "m" })
        [0] (.obj .nil) .fail (.ok (.obj (.cons "extraction" (.str "E") .nil)))).out
      = .page (some (stripTagsStr "m"))
          (metaOf ((updateCache emptyCache "fp" { parsedMd := some "m" }) "fp"))
          (.str "E") := by
  have h := c10_extraction_field_fallback (.obj (.cons "extraction" (.str "E") .nil))
    (.cons "extraction" (.str "E") .nil)
    { parsedMd := none, parseMeta := none,
      extracted := some (.good (.obj (.cons "extraction" (.str "E") .nil))),
      schemaHash := some "h" } "h"
  refine ⟨h.2.1 rfl rfl, ?_⟩
  exact h.2.2 (fun _ => "fp") id (updateCache emptyCache "fp" { parsedMd := some "m" })
    [0] (.obj .nil) "m" .fail rfl (by decide) rfl (.str "E") rfl

/-! ## Claim C2 -/

/-- Once the cache holds parsed markdown `md` for the fingerprint of `b`, a run
of byte-identical invocations never calls the remote parse, and every rendered
page carries that same markdown (post-tag-stripping). -/
theorem runList_after_parse_hit (hashB : List Nat → String) (hashS : String → String)
    (b : List Nat) (md : String) :
    ∀ (invs : List Upl) (c : CacheMap),
    (c (hashB b)).parsedMd = some md →
    (∀ i ∈ invs, i.fileBytes = b) →
    ∀ r ∈ (runList hashB hashS c invs).1,
      r.parseCalled = false ∧ ∀ mo pm y, r.out = .page mo pm y → mo = some (renderMd md)
  | [], c, h, hb => by simp [runList]
  | i :: t, c, h, hb => by
      have hib : i.fileBytes = b := hb i (by simp)
      have hmd : (c (hashB i.fileBytes)).parsedMd = some md := by rw [hib]; exact h
      have props := upload_parse_hit_props hashB hashS c i.fileBytes i.schema i.pr i.er md hmd
      intro r hr
      simp only [runList, List.mem_cons] at hr
      rcases hr with hr | hr
      · subst hr
        exact ⟨props.1, props.2.2⟩
      · have hmd2 : ((upload hashB hashS c i.fileBytes i.schema i.pr i.er).cache
            (hashB b)).parsedMd = some md := by
          rw [← hib]; exact props.2.1
        exact runList_after_parse_hit hashB hashS b md t
          (upload hashB hashS c i.fileBytes i.schema i.pr i.er).cache hmd2
          (fun j hj => hb j (List.mem_cons_of_mem i hj)) r hr

/-- Counterexample to C2 as stated: two byte-identical invocations whose parse
call succeeds with EMPTY markdown invoke the remote parse twice — `parsed.md`
is only written when the returned markdown is non-empty (line 168,
`if markdown:`), so the second invocation misses the cache again and the
remote parse capability is invoked more than once for this Document
Fingerprint. -/
theorem c2_counterexample :
    countParse ((runList (fun _ => "fp") id emptyCache
        [⟨[1], .obj .nil, .ok "" (.obj .nil), .fail⟩,
         ⟨[1], .obj .nil, .ok "" (.obj .nil), .fail⟩]).1) = 2 := by decide

/-- C2 (amended): the remote parse is invoked only while the cache holds no
parsed markdown for the Document Fingerprint. If an invocation's parse call
succeeds with non-empty markdown, then that invocation (when it renders a
page) returns the tag-stripped markdown, no later byte-identical invocation
invokes parse at all, and every later byte-identical invocation that renders a
page returns exactly the same (post-tag-stripping) markdown. (If parse fails,
no artifact is written; if parse succeeds with empty markdown,
`parse_meta.json` is still written (line 170) but `parsed.md` is not (line
168) — in either case the parse cache remains a miss and a later
byte-identical invocation calls the remote parse again.) -/
theorem c2_parse_reuse (hashB : List Nat → String) (hashS : String → String)
    (c : CacheMap) (b : List Nat) (schema : Json) (md : String) (meta : Json)
    (er : ExtractOutcome) (invs : List Upl)
    (h0 : (c (hashB b)).parsedMd = none) (hne : md ≠ "")
    (hb : ∀ i ∈ invs, i.fileBytes = b) :
    (upload hashB hashS c b schema (.ok md meta) er).parseCalled = true
    ∧ (∀ mo pm y, (upload hashB hashS c b schema (.ok md meta) er).out = .page mo pm y →
        mo = some (stripTagsStr md))
    ∧ ∀ r ∈ (runList hashB hashS
          (upload hashB hashS c b schema (.ok md meta) er).cache invs).1,
        r.parseCalled = false
        ∧ ∀ mo pm y, r.out = .page mo pm y → mo = some (stripTagsStr md) := by
  have heq := upload_fresh_ok_eq hashB hashS c b schema er md meta h0
  have hrender : renderMd md = stripTagsStr md := by simp [renderMd, hne]
  have hcache : ((upload hashB hashS c b schema (.ok md meta) er).cache (hashB b)).parsedMd
      = some md := by
    rw [heq]
    rw [(extractPhase_preserves_parse hashS _ (hashB b) md meta schema er true (hashB b)).1]
    rw [updateCache_self]
    simp [hne]
  refine ⟨?_, ?_, ?_⟩
  · rw [heq]; exact extractPhase_parseCalled _ _ _ _ _ _ _ _
  · intro mo pm y hout
    rw [heq] at hout
    rw [← hrender]
    exact extractPhase_out_md _ _ _ _ _ _ _ _ mo pm y hout
  · intro r hr
    have h2 := runList_after_parse_hit hashB hashS b md invs
      (upload hashB hashS c b schema (.ok md meta) er).cache hcache hb r hr
    exact ⟨h2.1, fun mo pm y hy => (h2.2 mo pm y hy).trans (by rw [hrender])⟩

/-- Witness for C2 (amended): a successful non-empty parse followed by one
byte-identical re-upload. -/
theorem c2_witness :
    (upload (fun _ => "fp") id emptyCache [1] (.obj .nil) (.ok "m" (.obj .nil)) .fail).parseCalled
      = true
    ∧ (∀ mo pm y,
        (upload (fun _ => "fp") id emptyCache [1] (.obj .nil) (.ok "m" (.obj .nil)) .fail).out
          = .page mo pm y → mo = some (stripTagsStr "m"))
    ∧ ∀ r ∈ (runList (fun _ => "fp") id
          (upload (fun _ => "fp") id emptyCache [1] (.obj .nil) (.ok "m" (.obj .nil)) .fail).cache
          [⟨[1], .obj .nil, .fail, .fail⟩]).1,
        r.parseCalled = false
        ∧ ∀ mo pm y, r.out = .page mo pm y → mo = some (stripTagsStr "m") :=
  c2_parse_reuse (fun _ => "fp") id emptyCache [1] (.obj .nil) "m" (.obj .nil) .fail
    [⟨[1], .obj .nil, .fail, .fail⟩] rfl (by decide)
    (by intro i hi; simp at hi; rw [hi])

/-! ## Claim C6 -/

/-- C6: for fixed file content, uploading under schema A, then schema B, then
schema A again (with the first parse succeeding with non-empty markdown, and
the two schema fingerprints distinct) invokes the remote extract capability
exactly three times and the remote parse exactly once: the schema-fingerprint
slot stores only the most recently used schema, so switching back to schema A
misses the extraction cache again, while the parsed markdown stays cached. -/
theorem c6_schema_change_invalidation (hashB : List Nat → String) (hashS : String → String)
    (b : List Nat) (A B : Json) (md : String) (meta : Json)
    (er1 er2 er3 : ExtractOutcome) (pr2 pr3 : ParseOutcome)
    (hAB : hashS (canon A) ≠ hashS (canon B)) (hne : md ≠ "") :
    countExtract ((runList hashB hashS emptyCache
      [⟨b, A, .ok md meta, er1⟩, ⟨b, B, pr2, er2⟩, ⟨b, A, pr3, er3⟩]).1) = 3
    ∧ countParse ((runList hashB hashS emptyCache
      [⟨b, A, .ok md meta, er1⟩, ⟨b, B, pr2, er2⟩, ⟨b, A, pr3, er3⟩]).1) = 1 := by
  have h1 := upload_fresh_extract_call hashB hashS emptyCache b A er1 md meta rfl hne rfl
  obtain ⟨j1, hj1⟩ := h1.2.2.2.2
  have hmiss2 : get_extraction
      ((upload hashB hashS emptyCache b A (.ok md meta) er1).cache (hashB b))
      (hashS (canon B)) = none := by
    simp [get_extraction, hj1, h1.2.2.2.1, hAB]
  have h2 := upload_hit_extract_call hashB hashS
    (upload hashB hashS emptyCache b A (.ok md meta) er1).cache b B pr2 er2 md
    h1.2.2.1 hne hmiss2
  obtain ⟨j2, hj2⟩ := h2.2.2.2.2
  have hmiss3 : get_extraction
      ((upload hashB hashS
          (upload hashB hashS emptyCache b A (.ok md meta) er1).cache b B pr2 er2).cache
        (hashB b))
      (hashS (canon A)) = none := by
    simp [get_extraction, hj2, h2.2.2.2.1, Ne.symm hAB]
  have h3 := upload_hit_extract_call hashB hashS
    (upload hashB hashS
      (upload hashB hashS emptyCache b A (.ok md meta) er1).cache b B pr2 er2).cache
    b A pr3 er3 md h2.2.2.1 hne hmiss3
  simp only [runList, countExtract, countParse, List.foldr]
  rw [h1.1, h1.2.1, h2.1, h2.2.1, h3.1, h3.2.1]
  simp

/-- Witness for C6 at concrete schemas with distinct fingerprints. -/
theorem c6_witness :
    countExtract ((runList (fun _ => "fp") id emptyCache
      [⟨[1], .obj (.cons "t" (.str "a") .nil), .ok "m" (.obj .nil), .fail⟩,
       ⟨[1], .obj (.cons "t" (.str "b") .nil), .fail, .fail⟩,
       ⟨[1], .obj (.cons "t" (.str "a") .nil), .fail, .fail⟩]).1) = 3
    ∧ countParse ((runList (fun _ => "fp") id emptyCache
      [⟨[1], .obj (.cons "t" (.str "a") .nil), .ok "m" (.obj .nil), .fail⟩,
       ⟨[1], .obj (.cons "t" (.str "b") .nil), .fail, .fail⟩,
       ⟨[1], .obj (.cons "t" (.str "a") .nil), .fail, .fail⟩]).1) = 1 :=
  c6_schema_change_invalidation (fun _ => "fp") id [1]
    (.obj (.cons "t" (.str "a") .nil)) (.obj (.cons "t" (.str "b") .nil)) "m" (.obj .nil)
    .fail .fail .fail .fail .fail (by decide) (by decide)
